import Mathlib

/-!
Verification of the Cast V2 transport client (`cast` package: `Connection`
in the connection source file, payload shapes in `payload.go`).

The development has two layers, both translated from the Go source:

* A byte-level model of the wire framing used by `Connection.Send`
  (4-byte big-endian length prefix, `uint32(len(data))`, then the
  serialized envelope) and of the receive loop's per-frame processing
  (`binary.Read` of the length, zero-length skip, `io.ReadFull`,
  envelope decode).  Bytes are `Nat`; the `uint32` conversion is the
  explicit truncation `% 2^32` realized by the digit extraction in
  `be32`.

* A state model of `Connection`: the package-global `requestID`
  counter (a Go 64-bit `int`, wrapped by `wrap64`), the
  `resultChanMap` correlation table (an association list from id to a
  single-buffered channel modelled as a message queue), the
  `connected` flag, and the operations `connect`, `Start`, `Send`,
  `SendAndWait`, `receiveLoop` and `handleMessage`.  Each operation
  also returns the list of externally observable events (frames
  written to the socket, slot registration/removal, deliveries), so
  ordering claims can be stated about the trace.  The points where the
  background receive loop can run concurrently with `SendAndWait`
  (between the `Send` call and the map registration, and during the
  `select` wait) are explicit schedule parameters carrying the frames
  the loop handles there.
-/

/-! ## Byte-level wire model -/

/-- The four bytes `binary.Write(conn, binary.BigEndian, uint32(n))`
produces for a length `n`: big-endian base-256 digits of `n % 2^32`
(the digit extraction itself performs the `uint32` truncation). -/
def be32 (n : Nat) : List Nat :=
  [n / 16777216 % 256, n / 65536 % 256, n / 256 % 256, n % 256]

/-- Model of `binary.Read` of a big-endian `uint32` from the stream: succeeds
exactly when four bytes are available, returning the value and the
rest of the stream. -/
def readBe32 : List Nat → Option (Nat × List Nat)
  | b0 :: b1 :: b2 :: b3 :: rest =>
      some (((b0 * 256 + b1) * 256 + b2) * 256 + b3, rest)
  | _ => none

/-- The envelope `pb.CastMessage` as `Send` fills it: fixed protocol
version (`CASTV2_1_0`, numeric value 0), the routing strings, payload
type (`STRING`, numeric value 0) and the UTF-8 JSON payload string. -/
structure WireMessage where
  ProtocolVersion : Nat
  SourceId : String
  DestinationId : String
  Namespace : String
  PayloadType : Nat
  PayloadUtf8 : String
  deriving DecidableEq

/-- Length-delimited encoding of one string field of the envelope.
Characters stand for the payload bytes; the count is the string's
character count. -/
def encStr (s : String) : List Nat :=
  be32 s.length ++ s.data.map Char.toNat

/-- Serialization of the envelope to bytes.  Models the contract of
`proto.Marshal` in `Send`: a deterministic, injective field-by-field
encoding whose inverse is `unmarshal`. -/
def marshal (m : WireMessage) : List Nat :=
  be32 m.ProtocolVersion ++ encStr m.SourceId ++ encStr m.DestinationId ++
    encStr m.Namespace ++ be32 m.PayloadType ++ encStr m.PayloadUtf8

/-- Decoding of one length-delimited string field. -/
def decStr (s : List Nat) : Option (String × List Nat) :=
  match readBe32 s with
  | none => none
  | some (len, rest) =>
      if rest.length < len then none
      else some (String.mk ((rest.take len).map Char.ofNat), rest.drop len)

/-- Deserialization of an envelope, the inverse of `marshal`; models
the contract of `proto.Unmarshal` in the receive loop.  `none` is a
decode failure (malformed envelope). -/
def unmarshal (s : List Nat) : Option WireMessage :=
  match readBe32 s with
  | none => none
  | some (pv, s1) =>
  match decStr s1 with
  | none => none
  | some (src, s2) =>
  match decStr s2 with
  | none => none
  | some (dst, s3) =>
  match decStr s3 with
  | none => none
  | some (ns, s4) =>
  match readBe32 s4 with
  | none => none
  | some (pt, s5) =>
  match decStr s5 with
  | none => none
  | some (pl, s6) =>
      if s6.isEmpty then some ⟨pv, src, dst, ns, pt, pl⟩ else none

/-- The exact bytes `Send` writes for envelope bytes `data`:
`binary.Write(conn, binary.BigEndian, uint32(len(data)))` followed by
`conn.Write(data)`. -/
def frameBytes (data : List Nat) : List Nat :=
  be32 data.length ++ data

/-- Outcome of one iteration of the receive loop on the byte stream. -/
inductive RecvOutcome where
  /-- `binary.Read` of the length prefix failed: `break`, the loop exits. -/
  | halted
  /-- `length == 0`: logged as an empty payload, `continue`. -/
  | skippedEmpty
  /-- `io.ReadFull` could not obtain `length` bytes: logged, `continue`. -/
  | droppedShort
  /-- envelope (or payload header) decoding failed: logged, `continue`. -/
  | droppedDecode
  /-- a frame decoded; it is passed to `handleMessage`. -/
  | dispatched (m : WireMessage)
  deriving DecidableEq

/-- One iteration of `receiveLoop` on the remaining byte stream: read
the 4-byte big-endian length (failure breaks the loop), skip
zero-length frames, read exactly `length` payload bytes (a short read
consumes the rest of the stream and continues), decode the envelope
(failure drops the frame and continues).  Returns the outcome and the
stream as left for the next iteration. -/
def recvStep (s : List Nat) : RecvOutcome × List Nat :=
  match readBe32 s with
  | none => (.halted, s)
  | some (len, rest) =>
      if len = 0 then (.skippedEmpty, rest)
      else if rest.length < len then (.droppedShort, [])
      else
        match unmarshal (rest.take len) with
        | none => (.droppedDecode, rest.drop len)
        | some m => (.dispatched m, rest.drop len)

/-! ## Connection state model -/

/-- The JSON object carried in `PayloadUtf8`, seen through the two
lookups the code performs on it: `jsonparser.GetString(payload,
"type")` and `jsonparser.GetInt(payload, "requestId")`.  A `none`
field is one the lookup fails on (absent or unparsable). -/
structure MsgPayload where
  /-- the `"type"` discriminator field -/
  typeField : Option String
  /-- the `"requestId"` integer field -/
  requestIdField : Option Int
  deriving DecidableEq

/-- Model of `PayloadHeader.SetRequestId`: writes the assigned id into the
payload's header. -/
def SetRequestId (p : MsgPayload) (id : Int) : MsgPayload :=
  { p with requestIdField := some id }

/-- The package-level `PongHeader = PayloadHeader{Type: "PONG"}`. -/
def PongHeader : MsgPayload := ⟨some "PONG", none⟩

/-- An inbound or outbound `CastMessage` at the dispatch layer: the
routing strings and the parsed view of its JSON payload. -/
structure CastMessage where
  SourceId : String
  DestinationId : String
  Namespace : String
  payload : MsgPayload
  deriving DecidableEq

/-- A `chan *pb.CastMessage` of buffer size 1, modelled as the queue
of messages sent into it and not yet received. -/
abbrev Slot := List CastMessage

/-- Externally observable actions of the connection. -/
inductive Event where
  /-- a framed envelope was written to the socket -/
  | frameSent (m : CastMessage)
  /-- `c.resultChanMap[id] = resultChan` executed -/
  | slotRegistered (id : Int)
  /-- `delete(c.resultChanMap, id)` executed -/
  | slotRemoved (id : Int)
  /-- `resultChan <- message` delivered `m` to the slot keyed `id` -/
  | delivered (id : Int) (m : CastMessage)
  deriving DecidableEq

/-- Lookup in the correlation map: `c.resultChanMap[k]`. -/
def mapGet : List (Int × Slot) → Int → Option Slot
  | [], _ => none
  | (k', v) :: t, k => if k' = k then some v else mapGet t k

/-- Map assignment `c.resultChanMap[k] = v` (replaces an existing
binding, otherwise adds one). -/
def mapSet : List (Int × Slot) → Int → Slot → List (Int × Slot)
  | [], k, v => [(k, v)]
  | (k', v') :: t, k, v =>
      if k' = k then (k, v) :: t else (k', v') :: mapSet t k v

/-- Map deletion `delete(c.resultChanMap, k)`. -/
def mapDel : List (Int × Slot) → Int → List (Int × Slot)
  | [], _ => []
  | (k', v') :: t, k => if k' = k then mapDel t k else (k', v') :: mapDel t k

/-- The keys currently present in the correlation map. -/
def mapKeys (t : List (Int × Slot)) : List Int := t.map (·.1)

/-- Go's 64-bit `int` wrap-around, applied to every counter
increment: the value reduced into `[-2^63, 2^63)`. -/
def wrap64 (n : Int) : Int :=
  (n + 9223372036854775808) % 18446744073709551616 - 9223372036854775808

/-- Smallest Go `int` value. -/
def int64Min : Int := -9223372036854775808

/-- Largest Go `int` value. -/
def int64Max : Int := 9223372036854775807

/-- The `Connection` state.  `requestID` models the package-global
request-id counter (declared at package level in Go, but threaded
through the connection state here); `resultChanMap` the correlation
table; `connected` the lifecycle flag (`false` = idle, `true` =
connected; the code has no further state). -/
structure Connection where
  requestID : Int
  resultChanMap : List (Int × Slot)
  connected : Bool
  debug : Bool
  deriving DecidableEq

/-- Model of `NewConnection`: empty correlation table, not connected, counter
at its initial value 0. -/
def NewConnection (debug : Bool) : Connection :=
  { requestID := 0, resultChanMap := [], connected := false, debug := debug }

/-- Model of `connect`: dials TLS.  `dialOK` is the outcome of
`tls.DialWithDialer`; on success the connection is marked connected,
on failure the wrapped error is returned and the state is unchanged.
The returned `Bool` is `true` when an error is returned. -/
def Connection.connect (c : Connection) (dialOK : Bool) : Connection × Bool :=
  if dialOK then ({ c with connected := true }, false) else (c, true)

/-- What `Start` leaves behind: the connection, whether an error was
returned, and whether `go c.receiveLoop()` was spawned. -/
structure StartOutcome where
  conn : Connection
  dialError : Bool
  loopSpawned : Bool
  deriving DecidableEq

/-- Model of `Start`: a no-op when already connected; otherwise it first
registers `defer func() { go c.receiveLoop() }()` and then calls
`connect`.  The deferred spawn runs when `Start` returns, whether or
not `connect` failed. -/
def Connection.Start (c : Connection) (dialOK : Bool) : StartOutcome :=
  if c.connected then ⟨c, false, false⟩
  else
    let r := c.connect dialOK
    ⟨r.1, r.2, true⟩

/-- What `Send` produces: the new state, the returned error (if any),
the id `requestID += 1` assigned (written into the caller's payload by
`SetRequestId`), the envelope built, and the trace of socket writes. -/
structure SendOut where
  conn : Connection
  err : Option String
  assigned : Int
  msg : CastMessage
  trace : List Event
  deriving DecidableEq

/-- Model of `Send`: increments the global counter, stamps the payload, builds
the envelope and writes the framed bytes.  `writeOK` is the outcome of
the socket writes; on failure the error is returned, but the counter
has already been consumed. -/
def Connection.Send (c : Connection) (p : MsgPayload)
    (sourceID destinationID nspace : String) (writeOK : Bool) : SendOut :=
  let id := wrap64 (c.requestID + 1)
  let p' := SetRequestId p id
  let msg : CastMessage := ⟨sourceID, destinationID, nspace, p'⟩
  let c' := { c with requestID := id }
  if writeOK then ⟨c', none, id, msg, [.frameSent msg]⟩
  else ⟨c', some "unable to send data", id, msg, []⟩

/-- Map assignment seen as a state change of the connection:
`c.resultChanMap[k] = v`. -/
def putSlot (c : Connection) (k : Int) (v : Slot) : Connection :=
  { c with resultChanMap := mapSet c.resultChanMap k v }

/-- Map deletion seen as a state change of the connection:
`delete(c.resultChanMap, k)`. -/
def delSlot (c : Connection) (k : Int) : Connection :=
  { c with resultChanMap := mapDel c.resultChanMap k }

/-- Model of `handleMessage`: reads the `"type"` field (absent: log and
return); on `"PING"` replies by `Send(&PongHeader, *message.SourceId,
*message.DestinationId, *message.Namespace)` (`pongWriteOK` is that
send's socket outcome, a failure is only logged); otherwise reads
`"requestId"` (`jsonparser.GetInt` yields 0 when the field is absent
or unparsable, and the code only logs the error) and, when a slot is
registered under that id, delivers the message into it. -/
def Connection.handleMessage (c : Connection) (m : CastMessage)
    (pongWriteOK : Bool) : Connection × List Event :=
  match m.payload.typeField with
  | none => (c, [])
  | some t =>
      if t = "PING" then
        let s := c.Send PongHeader m.SourceId m.DestinationId m.Namespace pongWriteOK
        (s.conn, s.trace)
      else
        let rid : Int := m.payload.requestIdField.getD 0
        match mapGet c.resultChanMap rid with
        | some slot => (putSlot c rid (slot ++ [m]), [.delivered rid m])
        | none => (c, [])

/-- The receive loop's dispatch work over a sequence of decoded
inbound frames (each paired with the socket outcome of a possible PONG
reply), in arrival order. -/
def processFrames : Connection → List (CastMessage × Bool) → Connection × List Event
  | c, [] => (c, [])
  | c, (m, w) :: rest =>
      let st := c.handleMessage m w
      let next := processFrames st.1 rest
      (next.1, st.2 ++ next.2)

/-- Model of `receiveLoop` at the dispatch layer: handles the decoded inbound
frames in order and, when the next length-prefix read fails (socket
closed or errored — the end of the frame list), executes `break` and
returns.  Nothing else happens on exit. -/
def Connection.receiveLoop (c : Connection) (frames : List (CastMessage × Bool)) :
    Connection × List Event :=
  processFrames c frames

/-- A schedule for one `SendAndWait` call: the socket outcome of its
`Send`, the frames the concurrently running receive loop handles
between `Send` returning and the map registration, the frames it
handles while the caller is blocked in `select`, and whether the
`ctx.Done()` branch of the `select` fires. -/
structure SAWInput where
  writeOK : Bool
  window : List (CastMessage × Bool)
  waitFrames : List (CastMessage × Bool)
  ctxDone : Bool
  deriving DecidableEq

/-- What a `SendAndWait` call returns. -/
inductive SAWResult where
  /-- `Send` returned an error, forwarded as-is -/
  | errSend (e : String)
  /-- `ctx.Done()` fired: `ctx.Err()` is returned -/
  | cancelled
  /-- a message was received from the result channel -/
  | response (m : CastMessage)
  /-- neither branch of the `select` can fire: the call never returns -/
  | blocked
  deriving DecidableEq

/-- What a `SendAndWait` call leaves behind. -/
structure SAWOut where
  conn : Connection
  result : SAWResult
  assigned : Int
  trace : List Event
  deriving DecidableEq

/-- The `select` block of `SendAndWait` together with the deferred
cleanup, from the state `c4` the connection has when the `select`
resolves.  If `ctx.Done()` fires, the context error is returned;
otherwise a buffered message is received from the slot registered
under `key`, or the call stays blocked.  On either returning path the
deferred `delete(c.resultChanMap, requestID)` runs, keyed by the
global counter's CURRENT value `c4.requestID`, not by the id the call
assigned. -/
def Connection.sawFinish (c4 : Connection) (key : Int) (ctxDone : Bool) :
    Connection × SAWResult × List Event :=
  if ctxDone then
    (delSlot c4 c4.requestID, .cancelled, [.slotRemoved c4.requestID])
  else
    match mapGet c4.resultChanMap key with
    | some (m :: restq) =>
        let c5 := putSlot c4 key restq
        (delSlot c5 c5.requestID, .response m, [.slotRemoved c5.requestID])
    | _ => (c4, .blocked, [])

/-- Model of `SendAndWait`: calls `Send` (an error is returned at once, before
any registration); then registers `c.resultChanMap[requestID] =
resultChan`, reading the global counter again — any frames the loop
handled in between (`inp.window`) have already moved it; then blocks
in `select`, resolved by `sawFinish` after the frames of
`inp.waitFrames` were handled. -/
def Connection.SendAndWait (c : Connection) (p : MsgPayload)
    (src dst nspace : String) (inp : SAWInput) : SAWOut :=
  let s := c.Send p src dst nspace inp.writeOK
  match s.err with
  | some e => ⟨s.conn, .errSend e, s.assigned, s.trace⟩
  | none =>
      let pw := processFrames s.conn inp.window
      let key := pw.1.requestID
      let c3 := putSlot pw.1 key []
      let pq := processFrames c3 inp.waitFrames
      let base := s.trace ++ pw.2 ++ [.slotRegistered key] ++ pq.2
      ⟨(pq.1.sawFinish key inp.ctxDone).1, (pq.1.sawFinish key inp.ctxDone).2.1,
        s.assigned, base ++ (pq.1.sawFinish key inp.ctxDone).2.2⟩

/-- One sequential caller-side send operation: the arguments of a
`Send` (or of the `Send` inside a `SendAndWait`). -/
structure SendCall where
  payload : MsgPayload
  src : String
  dst : String
  nspace : String
  writeOK : Bool
  deriving DecidableEq

/-- A sequential caller-side operation on the connection. -/
inductive CallItem where
  | plain (call : SendCall)
  | waited (call : SendCall) (inp : SAWInput)
  deriving DecidableEq

/-- How many request ids one call consumes at most: its own
assignment plus one per PING the loop may answer during its windows. -/
def callWeight : CallItem → Nat
  | .plain _ => 1
  | .waited _ inp => 1 + inp.window.length + inp.waitFrames.length

/-- Total id budget of a run. -/
def runWeight (items : List CallItem) : Nat := (items.map callWeight).sum

/-- The request ids assigned to the caller's payloads across a
sequence of `Send` / `SendAndWait` calls, in call order. -/
def runCalls (c : Connection) : List CallItem → List Int
  | [] => []
  | .plain a :: rest =>
      let s := c.Send a.payload a.src a.dst a.nspace a.writeOK
      s.assigned :: runCalls s.conn rest
  | .waited a inp :: rest =>
      let o := c.SendAndWait a.payload a.src a.dst a.nspace inp
      o.assigned :: runCalls o.conn rest

/-- Every key of the correlation table is a positive id. -/
def TableOK (c : Connection) : Prop := ∀ k ∈ mapKeys c.resultChanMap, 1 ≤ k

/-! ## Concrete fixtures used in the theorems -/

/-- An inbound PING frame with source `"AAA"` and destination `"BBB"`. -/
def pingFrame : CastMessage := ⟨"AAA", "BBB", "urn:ns", ⟨some "PING", none⟩⟩

/-- An adversarial inbound frame whose JSON payload carries `requestId` 2. -/
def statusFrame2 : CastMessage := ⟨"x", "y", "z", ⟨some "RECEIVER_STATUS", some 2⟩⟩

/-- A CONNECT command payload before id assignment. -/
def connectPayload : MsgPayload := ⟨some "CONNECT", none⟩

/-- A connected connection with one outstanding pending slot, id 1. -/
def pendingConn : Connection :=
  { requestID := 1, resultChanMap := [(1, [])], connected := true, debug := false }

/-- A small concrete envelope as `Send` builds it. -/
def sampleEnvelope : WireMessage := ⟨0, "s", "d", "ns", 0, "p"⟩

/-! ## Helper lemmas -/

theorem wrap64_eq_self (x : Int) (h1 : int64Min ≤ x) (h2 : x ≤ int64Max) :
    wrap64 x = x := by
  unfold int64Min at h1
  unfold int64Max at h2
  unfold wrap64
  omega

theorem readBe32_be32 (n : Nat) (h : n < 4294967296) (rest : List Nat) :
    readBe32 (be32 n ++ rest) = some (n, rest) := by
  have hdig :
      ((n / 16777216 % 256 * 256 + n / 65536 % 256) * 256 + n / 256 % 256) * 256 + n % 256
        = n := by omega
  simp only [be32, List.cons_append, List.nil_append, readBe32, hdig]

theorem readBe32_eq_none_iff (s : List Nat) : readBe32 s = none ↔ s.length < 4 := by
  rcases s with _ | ⟨a, _ | ⟨b, _ | ⟨c, _ | ⟨d, t⟩⟩⟩⟩ <;> simp [readBe32]

theorem map_ofNat_toNat (l : List Char) : (l.map Char.toNat).map Char.ofNat = l := by
  rw [List.map_map]
  have : Char.ofNat ∘ Char.toNat = id := funext Char.ofNat_toNat
  rw [this, List.map_id]

theorem decStr_encStr (s : String) (h : s.length < 4294967296) (rest : List Nat) :
    decStr (encStr s ++ rest) = some (s, rest) := by
  have hlen : (s.data.map Char.toNat).length = s.length := by
    rw [List.length_map]
    rfl
  unfold encStr decStr
  rw [List.append_assoc, readBe32_be32 s.length h]
  have hnot : ¬ (s.data.map Char.toNat ++ rest).length < s.length := by
    simp [List.length_append, hlen]
  simp only [hnot, if_false]
  rw [← hlen, List.take_left, List.drop_left, map_ofNat_toNat]

theorem unmarshal_marshal (m : WireMessage)
    (h1 : m.ProtocolVersion < 4294967296) (h2 : m.SourceId.length < 4294967296)
    (h3 : m.DestinationId.length < 4294967296) (h4 : m.Namespace.length < 4294967296)
    (h5 : m.PayloadType < 4294967296) (h6 : m.PayloadUtf8.length < 4294967296) :
    unmarshal (marshal m) = some m := by
  obtain ⟨pv, src, dst, ns, pt, pl⟩ := m
  simp only at h1 h2 h3 h4 h5 h6
  unfold marshal unmarshal
  simp only [List.append_assoc]
  rw [readBe32_be32 pv h1]
  simp only
  rw [decStr_encStr src h2]
  simp only
  rw [decStr_encStr dst h3]
  simp only
  rw [decStr_encStr ns h4]
  simp only
  rw [readBe32_be32 pt h5]
  simp only
  rw [← List.append_nil (encStr pl), decStr_encStr pl h6]
  simp [List.isEmpty_nil]

theorem marshal_length (m : WireMessage) :
    (marshal m).length = 24 + m.SourceId.length + m.DestinationId.length
      + m.Namespace.length + m.PayloadUtf8.length := by
  have hs : ∀ s : String, (s.data.map Char.toNat).length = s.length := by
    intro s
    rw [List.length_map]
    rfl
  simp only [marshal, encStr, be32, List.length_append, List.cons.injEq,
    List.length_cons, List.length_nil, hs]
  omega

/-- C8 (amended): for an envelope shorter than `2^32` bytes, `Send`'s
framing declares exactly the envelope's byte length, and the receive
loop's processing of the framed bytes recovers the envelope — and with
it the byte-identical JSON payload content — leaving the rest of the
stream untouched. -/
theorem frame_roundtrip_below_two_pow_32 (m : WireMessage) (more : List Nat)
    (h1 : m.ProtocolVersion < 4294967296) (h2 : m.SourceId.length < 4294967296)
    (h3 : m.DestinationId.length < 4294967296) (h4 : m.Namespace.length < 4294967296)
    (h5 : m.PayloadType < 4294967296) (h6 : m.PayloadUtf8.length < 4294967296)
    (h7 : (marshal m).length < 4294967296) :
    readBe32 (frameBytes (marshal m)) = some ((marshal m).length, marshal m)
    ∧ recvStep (frameBytes (marshal m) ++ more) = (.dispatched m, more) := by
  constructor
  · exact readBe32_be32 (marshal m).length h7 (marshal m)
  · have hpos : (marshal m).length ≠ 0 := by
      rw [marshal_length]
      omega
    have hshort : ¬ (marshal m ++ more).length < (marshal m).length := by
      rw [List.length_append]
      omega
    unfold recvStep frameBytes
    rw [List.append_assoc, readBe32_be32 (marshal m).length h7 (marshal m ++ more)]
    simp only [hpos, if_false, hshort, List.take_left, List.drop_left,
      unmarshal_marshal m h1 h2 h3 h4 h5 h6]

/-- C8 (counterexample to the claim as stated): an envelope of exactly
`2^32` bytes is framed with declared length `uint32(2^32) = 0`, which
differs from the actual byte length, and the receive loop consumes the
frame as a harmless empty frame instead of reproducing the payload. -/
theorem frame_length_truncates_at_two_pow_32 :
    readBe32 (frameBytes (List.replicate 4294967296 0)) =
      some (0, List.replicate 4294967296 0)
    ∧ recvStep (frameBytes (List.replicate 4294967296 0)) =
        (.skippedEmpty, List.replicate 4294967296 0)
    ∧ (List.replicate 4294967296 (0 : Nat)).length = 4294967296
    ∧ (0 : Nat) ≠ 4294967296 := by
  have hb : be32 (List.replicate 4294967296 (0 : Nat)).length = [0, 0, 0, 0] := by
    rw [List.length_replicate]
    norm_num [be32]
  have hr : readBe32 (frameBytes (List.replicate 4294967296 0)) =
      some (0, List.replicate 4294967296 0) := by
    unfold frameBytes
    rw [hb]
    rfl
  refine ⟨hr, ?_, List.length_replicate _ _, by norm_num⟩
  unfold recvStep
  rw [hr]
  rfl

/-- C9: the receive loop survives malformed input.  The loop's
iteration halts exactly when the 4-byte length read fails (fewer than
four bytes remain, the closed-socket case); a zero-valued length is
consumed as a harmless empty frame and the loop continues; a frame
whose declared payload cannot be fully read is discarded and the loop
continues; a frame whose bytes fail envelope decoding is discarded and
the loop continues. -/
theorem receiveLoop_survives_malformed_frames (s : List Nat) :
    ((recvStep s).1 = .halted ↔ s.length < 4)
    ∧ (∀ len rest, readBe32 s = some (len, rest) → len = 0 →
        recvStep s = (.skippedEmpty, rest))
    ∧ (∀ len rest, readBe32 s = some (len, rest) → len ≠ 0 → rest.length < len →
        recvStep s = (.droppedShort, []))
    ∧ (∀ len rest, readBe32 s = some (len, rest) → len ≠ 0 → ¬ rest.length < len →
        unmarshal (rest.take len) = none →
        recvStep s = (.droppedDecode, rest.drop len)) := by
  refine ⟨?_, ?_, ?_, ?_⟩
  · rw [← readBe32_eq_none_iff]
    unfold recvStep
    rcases h : readBe32 s with _ | ⟨len, rest⟩
    · simp
    · constructor
      · intro hc
        exfalso
        by_cases hz : len = 0
        · simp [hz] at hc
        · by_cases hs2 : rest.length < len
          · simp [hz, hs2] at hc
          · rcases hu : unmarshal (rest.take len) with _ | m <;>
              simp [hz, hs2, hu] at hc
      · intro hc
        exact absurd hc (by simp)
  · intro len rest h hz
    unfold recvStep
    rw [h]
    simp [hz]
  · intro len rest h hz hshort
    unfold recvStep
    rw [h]
    simp [hz, hshort]
  · intro len rest h hz hshort hdec
    unfold recvStep
    rw [h]
    simp [hz, hshort, hdec]

/-- Witness for C9 at a concrete stream: a zero-length frame followed
by a stray byte is consumed as an empty frame, and the iteration does
not halt. -/
theorem receiveLoop_survives_malformed_frames_witness :
    recvStep [0, 0, 0, 0, 7] = (.skippedEmpty, [7]) :=
  (receiveLoop_survives_malformed_frames [0, 0, 0, 0, 7]).2.1 0 [7] rfl rfl

/-! ## Structural lemmas about the connection operations -/

theorem requestID_set_map (c : Connection) (t : List (Int × Slot)) :
    ({ c with resultChanMap := t } : Connection).requestID = c.requestID := rfl

theorem wrap64_succ (r : Int) (h1 : int64Min ≤ r) (h2 : r + 1 ≤ int64Max) :
    wrap64 (r + 1) = r + 1 := by
  apply wrap64_eq_self
  · unfold int64Min at h1 ⊢
    omega
  · exact h2

theorem Send_conn (c : Connection) (p : MsgPayload) (a b n : String) (w : Bool) :
    (c.Send p a b n w).conn = { c with requestID := wrap64 (c.requestID + 1) } := by
  simp only [Connection.Send]
  split <;> rfl

theorem Send_assigned_eq (c : Connection) (p : MsgPayload) (a b n : String) (w : Bool) :
    (c.Send p a b n w).assigned = wrap64 (c.requestID + 1) := by
  simp only [Connection.Send]
  split <;> rfl

theorem Send_no_slotRegistered (c : Connection) (p : MsgPayload) (a b n : String)
    (w : Bool) (k : Int) : Event.slotRegistered k ∉ (c.Send p a b n w).trace := by
  simp only [Connection.Send]
  split <;> simp

theorem handleMessage_connected (c : Connection) (m : CastMessage) (w : Bool) :
    (c.handleMessage m w).1.connected = c.connected := by
  simp only [Connection.handleMessage]
  split
  · rfl
  · split
    · simp [Send_conn]
    · split <;> rfl

theorem handleMessage_requestID (c : Connection) (m : CastMessage) (w : Bool) :
    (c.handleMessage m w).1.requestID = c.requestID
    ∨ (c.handleMessage m w).1.requestID = wrap64 (c.requestID + 1) := by
  simp only [Connection.handleMessage]
  split
  · exact Or.inl rfl
  · split
    · exact Or.inr (by simp [Send_conn])
    · split
      · exact Or.inl rfl
      · exact Or.inl rfl

theorem handleMessage_no_slotRegistered (c : Connection) (m : CastMessage) (w : Bool)
    (k : Int) : Event.slotRegistered k ∉ (c.handleMessage m w).2 := by
  simp only [Connection.handleMessage]
  split
  · simp
  · split
    · simp only [Connection.Send]
      split <;> simp
    · split <;> simp

theorem processFrames_connected (fs : List (CastMessage × Bool)) :
    ∀ c : Connection, (processFrames c fs).1.connected = c.connected := by
  induction fs with
  | nil => intro c; rfl
  | cons a rest ih =>
    intro c
    obtain ⟨m, w⟩ := a
    simp only [processFrames]
    rw [ih, handleMessage_connected]

theorem processFrames_no_slotRegistered (fs : List (CastMessage × Bool)) :
    ∀ (c : Connection) (k : Int), Event.slotRegistered k ∉ (processFrames c fs).2 := by
  induction fs with
  | nil => intro c k; simp [processFrames]
  | cons a rest ih =>
    intro c k
    obtain ⟨m, w⟩ := a
    simp only [processFrames, List.mem_append]
    push_neg
    exact ⟨handleMessage_no_slotRegistered c m w k, ih _ k⟩

theorem processFrames_requestID_bounds (fs : List (CastMessage × Bool)) :
    ∀ c : Connection, int64Min ≤ c.requestID →
      c.requestID + (fs.length : Int) ≤ int64Max →
      c.requestID ≤ (processFrames c fs).1.requestID
      ∧ (processFrames c fs).1.requestID ≤ c.requestID + (fs.length : Int) := by
  induction fs with
  | nil =>
    intro c h1 h2
    simp [processFrames]
  | cons a rest ih =>
    intro c h1 h2
    obtain ⟨m, w⟩ := a
    simp only [List.length_cons] at h2
    push_cast at h2
    have hcast : (0 : Int) ≤ (rest.length : Int) := Int.natCast_nonneg _
    have hone : c.requestID + 1 ≤ int64Max := by omega
    have hw1 : wrap64 (c.requestID + 1) = c.requestID + 1 := wrap64_succ _ h1 hone
    have hm := handleMessage_requestID c m w
    rw [hw1] at hm
    have hle : c.requestID ≤ (c.handleMessage m w).1.requestID
        ∧ (c.handleMessage m w).1.requestID ≤ c.requestID + 1 := by
      rcases hm with hm | hm <;> rw [hm] <;> omega
    have hrec := ih (c.handleMessage m w).1 (by omega) (by omega)
    simp only [processFrames, List.length_cons]
    push_cast
    omega

/-! ## Claim theorems -/

/-- C1 (code evidence): on a `SendAndWait` call the frame carrying the
assigned request id is transmitted strictly before the pending-request
slot is registered — the trace of the first call on a fresh connection
begins with the socket write and only then registers slot 1 (the code
calls `Send` first and assigns `c.resultChanMap[requestID]`
afterwards).  This contradicts the claim that registration happens
before, or atomically with, transmission. -/
theorem SendAndWait_registers_slot_after_transmit :
    ((NewConnection false).SendAndWait connectPayload "sender-0" "receiver-0"
        "urn:x-cast:com.google.cast.tp.connection" ⟨true, [], [], true⟩).trace
      = [Event.frameSent ⟨"sender-0", "receiver-0",
            "urn:x-cast:com.google.cast.tp.connection", ⟨some "CONNECT", some 1⟩⟩,
         Event.slotRegistered 1, Event.slotRemoved 1] := by
  decide

/-- C2 (code evidence): when the receive loop terminates (the next
length-prefix read fails, here the end of the inbound frame list), the
connection is NOT transitioned to a closed state — `connected` is
never modified by the loop — and an outstanding pending slot receives
no connection-closed failure: on a connection with pending slot 1 the
loop exits leaving the state byte-for-byte unchanged and emits no
event. -/
theorem receiveLoop_exit_silent :
    (∀ (c : Connection) (frames : List (CastMessage × Bool)),
        ((c.receiveLoop frames).1).connected = c.connected)
    ∧ pendingConn.receiveLoop [] = (pendingConn, []) := by
  constructor
  · intro c frames
    exact processFrames_connected frames c
  · rfl

/-- C5 (code evidence): `Start` on a fresh (idle) connection whose TLS
dial fails returns an error and leaves the connection idle, but the
deferred `go c.receiveLoop()` — registered before `connect` runs —
still spawns the background receive loop.  This contradicts the claim
that the loop is spawned only on successful dial. -/
theorem Start_spawns_loop_despite_dial_failure :
    (NewConnection false).Start false = ⟨NewConnection false, true, true⟩ := by
  decide

/-- C7 (code evidence): a `SendAndWait` call (assigned id 1) whose
context is cancelled returns the cancellation result, but when the
receive loop answered a PING during the wait (consuming id 2), the
deferred `delete(c.resultChanMap, requestID)` reads the moved global
counter and deletes key 2, leaving the entry for the call's own id 1
in the correlation table.  This contradicts the claim that every exit
path removes the call's slot. -/
theorem SendAndWait_cancel_leaves_residual_slot :
    ((NewConnection false).SendAndWait connectPayload "s" "d" "urn:tp"
        ⟨true, [], [(pingFrame, true)], true⟩).result = SAWResult.cancelled
    ∧ ((NewConnection false).SendAndWait connectPayload "s" "d" "urn:tp"
        ⟨true, [], [(pingFrame, true)], true⟩).assigned = 1
    ∧ ((NewConnection false).SendAndWait connectPayload "s" "d" "urn:tp"
        ⟨true, [], [(pingFrame, true)], true⟩).conn.resultChanMap = [(1, [])] := by
  decide

/-- C4 (code evidence): a `SendAndWait` call can return a response
envelope whose `requestId` differs from the id assigned to its own
outbound payload: with a PING handled by the receive loop between
`Send` and the slot registration (the race window the code's own TODO
flags), the slot is registered under the moved counter value 2, and an
inbound frame carrying `requestId` 2 is delivered and returned even
though the call's payload was assigned id 1. -/
theorem SendAndWait_can_return_foreign_requestId :
    ((NewConnection false).SendAndWait connectPayload "s" "d" "urn:tp"
        ⟨true, [(pingFrame, true)], [(statusFrame2, true)], false⟩).assigned = 1
    ∧ ((NewConnection false).SendAndWait connectPayload "s" "d" "urn:tp"
        ⟨true, [(pingFrame, true)], [(statusFrame2, true)], false⟩).result
        = SAWResult.response statusFrame2
    ∧ statusFrame2.payload.requestIdField = some 2
    ∧ (2 : Int) ≠ 1 := by
  decide

/-- C3 (counterexample to the claim as stated): handling a PING whose
source is `"AAA"` and destination is `"BBB"` sends exactly one PONG
frame, but its source and destination are `"AAA"` and `"BBB"` again —
the code passes `*message.SourceId, *message.DestinationId` to `Send`
unswapped — not the swapped `"BBB"`/`"AAA"` the claim requires. -/
theorem handleMessage_ping_reply_endpoints_not_swapped :
    ((NewConnection false).handleMessage pingFrame true).2
      = [Event.frameSent ⟨"AAA", "BBB", "urn:ns", ⟨some "PONG", some 1⟩⟩]
    ∧ pingFrame.SourceId = "AAA" ∧ pingFrame.DestinationId = "BBB"
    ∧ ("AAA" : String) ≠ "BBB" := by
  decide

/-- C3 (amended): an inbound frame whose payload type is `"PING"`
makes the connection send exactly one PONG frame whose source id,
destination id and namespace equal those of the inbound frame (the
same triple, not swapped), and the correlation table is untouched —
only the request-id counter moves. -/
theorem handleMessage_ping_sends_pong_same_triple (c : Connection) (m : CastMessage)
    (h : m.payload.typeField = some "PING") :
    c.handleMessage m true
      = ({ c with requestID := wrap64 (c.requestID + 1) },
         [Event.frameSent ⟨m.SourceId, m.DestinationId, m.Namespace,
            ⟨some "PONG", some (wrap64 (c.requestID + 1))⟩⟩]) := by
  simp only [Connection.handleMessage, h]
  simp [Connection.Send, SetRequestId, PongHeader]

/-- Witness for C3 (amended) at a concrete PING frame. -/
theorem handleMessage_ping_sends_pong_same_triple_witness :
    (NewConnection false).handleMessage pingFrame true
      = ({ NewConnection false with
            requestID := wrap64 ((NewConnection false).requestID + 1) },
         [Event.frameSent ⟨pingFrame.SourceId, pingFrame.DestinationId,
            pingFrame.Namespace,
            ⟨some "PONG", some (wrap64 ((NewConnection false).requestID + 1))⟩⟩]) :=
  handleMessage_ping_sends_pong_same_triple (NewConnection false) pingFrame rfl

theorem requestID_set_req (c : Connection) (x : Int) :
    ({ c with requestID := x } : Connection).requestID = x := rfl


theorem putSlot_requestID (c : Connection) (k : Int) (v : Slot) :
    (putSlot c k v).requestID = c.requestID := rfl

theorem delSlot_requestID (c : Connection) (k : Int) :
    (delSlot c k).requestID = c.requestID := rfl

theorem sawFinish_requestID (c : Connection) (key : Int) (d : Bool) :
    (c.sawFinish key d).1.requestID = c.requestID := by
  unfold Connection.sawFinish
  split
  · rfl
  · split <;> rfl

theorem sawFinish_no_slotRegistered (c : Connection) (key : Int) (d : Bool) (k : Int) :
    Event.slotRegistered k ∉ (c.sawFinish key d).2.2 := by
  unfold Connection.sawFinish
  split
  · simp
  · split <;> simp

theorem SendAndWait_bounds (c : Connection) (p : MsgPayload) (src dst n : String)
    (inp : SAWInput) (h1 : int64Min ≤ c.requestID)
    (h2 : c.requestID + 1 + (inp.window.length : Int) + (inp.waitFrames.length : Int)
        ≤ int64Max) :
    (c.SendAndWait p src dst n inp).assigned = c.requestID + 1
    ∧ c.requestID + 1 ≤ (c.SendAndWait p src dst n inp).conn.requestID
    ∧ (c.SendAndWait p src dst n inp).conn.requestID
        ≤ c.requestID + 1 + (inp.window.length : Int) + (inp.waitFrames.length : Int) := by
  obtain ⟨wOK, win, wfr, cd⟩ := inp
  simp only at h2
  have hwin : (0 : Int) ≤ (win.length : Int) := Int.natCast_nonneg _
  have hwait : (0 : Int) ≤ (wfr.length : Int) := Int.natCast_nonneg _
  have hone : c.requestID + 1 ≤ int64Max := by omega
  have hw1 : wrap64 (c.requestID + 1) = c.requestID + 1 := wrap64_succ _ h1 hone
  have hb1 := processFrames_requestID_bounds win
      { c with requestID := c.requestID + 1 }
      (by rw [requestID_set_req]; omega) (by rw [requestID_set_req]; omega)
  rw [requestID_set_req] at hb1
  have hb2 := processFrames_requestID_bounds wfr
      (putSlot (processFrames { c with requestID := c.requestID + 1 } win).1
        (processFrames { c with requestID := c.requestID + 1 } win).1.requestID [])
      (by rw [putSlot_requestID]; omega) (by rw [putSlot_requestID]; omega)
  rw [putSlot_requestID] at hb2
  cases wOK
  · simp only [Connection.SendAndWait, Connection.Send, Bool.false_eq_true, if_false,
      hw1]
    exact ⟨trivial, by omega, by omega⟩
  · simp only [Connection.SendAndWait, Connection.Send, if_true, hw1,
      sawFinish_requestID]
    exact ⟨trivial, by omega, by omega⟩

theorem runCalls_mem_gt (items : List CallItem) :
    ∀ c : Connection, int64Min ≤ c.requestID →
      c.requestID + (runWeight items : Int) ≤ int64Max →
      ∀ x ∈ runCalls c items, c.requestID < x := by
  induction items with
  | nil =>
    intro c h1 h2 x hx
    simp [runCalls] at hx
  | cons a rest ih =>
    intro c h1 h2 x hx
    cases a with
    | plain call =>
      have hwt : runWeight (CallItem.plain call :: rest) = 1 + runWeight rest := by
        simp [runWeight, callWeight]
      rw [hwt] at h2
      push_cast at h2
      have hnn : (0 : Int) ≤ (runWeight rest : Int) := Int.natCast_nonneg _
      have hone : c.requestID + 1 ≤ int64Max := by omega
      have hw1 : wrap64 (c.requestID + 1) = c.requestID + 1 := wrap64_succ _ h1 hone
      have hconn : (c.Send call.payload call.src call.dst call.nspace
          call.writeOK).conn.requestID = c.requestID + 1 := by
        rw [Send_conn, requestID_set_req, hw1]
      simp only [runCalls] at hx
      rcases List.mem_cons.mp hx with hx | hx
      · rw [hx, Send_assigned_eq, hw1]
        omega
      · have hgt := ih _ (by rw [hconn]; omega) (by rw [hconn]; omega) x hx
        rw [hconn] at hgt
        omega
    | waited call inp =>
      have hwt : runWeight (CallItem.waited call inp :: rest)
          = (1 + inp.window.length + inp.waitFrames.length) + runWeight rest := by
        simp [runWeight, callWeight]
      rw [hwt] at h2
      push_cast at h2
      have hnn : (0 : Int) ≤ (runWeight rest : Int) := Int.natCast_nonneg _
      have hwin : (0 : Int) ≤ (inp.window.length : Int) := Int.natCast_nonneg _
      have hwait : (0 : Int) ≤ (inp.waitFrames.length : Int) := Int.natCast_nonneg _
      obtain ⟨ha, hlow, hhigh⟩ := SendAndWait_bounds c call.payload call.src call.dst
        call.nspace inp h1 (by omega)
      simp only [runCalls] at hx
      rcases List.mem_cons.mp hx with hx | hx
      · rw [hx, ha]
        omega
      · have hgt := ih _ (by omega) (by omega) x hx
        omega

/-- C6: across any sequence of `Send` / `SendAndWait` calls on a
connection, the assigned request ids are pairwise strictly increasing
— each id is issued at most once — provided the 64-bit counter does
not overflow over the run (the counter starts no lower than
`int64Min` and the run's id budget stays within `int64Max`). -/
theorem sequential_send_ids_strictly_increasing (c : Connection) (items : List CallItem)
    (h1 : int64Min ≤ c.requestID)
    (h2 : c.requestID + (runWeight items : Int) ≤ int64Max) :
    List.Pairwise (· < ·) (runCalls c items) := by
  induction items generalizing c with
  | nil => simp [runCalls]
  | cons a rest ih =>
    cases a with
    | plain call =>
      have hwt : runWeight (CallItem.plain call :: rest) = 1 + runWeight rest := by
        simp [runWeight, callWeight]
      rw [hwt] at h2
      push_cast at h2
      have hnn : (0 : Int) ≤ (runWeight rest : Int) := Int.natCast_nonneg _
      have hone : c.requestID + 1 ≤ int64Max := by omega
      have hw1 : wrap64 (c.requestID + 1) = c.requestID + 1 := wrap64_succ _ h1 hone
      have hconn : (c.Send call.payload call.src call.dst call.nspace
          call.writeOK).conn.requestID = c.requestID + 1 := by
        rw [Send_conn, requestID_set_req, hw1]
      simp only [runCalls]
      refine List.Pairwise.cons ?_ (ih _ (by rw [hconn]; omega) (by rw [hconn]; omega))
      intro x hx
      have hgt := runCalls_mem_gt rest _ (by rw [hconn]; omega)
        (by rw [hconn]; omega) x hx
      rw [hconn] at hgt
      rw [Send_assigned_eq, hw1]
      omega
    | waited call inp =>
      have hwt : runWeight (CallItem.waited call inp :: rest)
          = (1 + inp.window.length + inp.waitFrames.length) + runWeight rest := by
        simp [runWeight, callWeight]
      rw [hwt] at h2
      push_cast at h2
      have hnn : (0 : Int) ≤ (runWeight rest : Int) := Int.natCast_nonneg _
      have hwin : (0 : Int) ≤ (inp.window.length : Int) := Int.natCast_nonneg _
      have hwait : (0 : Int) ≤ (inp.waitFrames.length : Int) := Int.natCast_nonneg _
      obtain ⟨ha, hlow, hhigh⟩ := SendAndWait_bounds c call.payload call.src call.dst
        call.nspace inp h1 (by omega)
      simp only [runCalls]
      refine List.Pairwise.cons ?_ (ih _ (by omega) (by omega))
      intro x hx
      have hgt := runCalls_mem_gt rest _ (by omega) (by omega) x hx
      rw [ha]
      omega

/-- Witness for C6: two sequential `Send` calls on a fresh connection
are assigned ids `[1, 2]`, strictly increasing. -/
theorem sequential_send_ids_strictly_increasing_witness :
    List.Pairwise (· < ·) (runCalls (NewConnection false)
      [CallItem.plain ⟨connectPayload, "s", "d", "urn:tp", true⟩,
       CallItem.plain ⟨⟨some "GET_STATUS", none⟩, "s", "d", "urn:tp", true⟩]) :=
  sequential_send_ids_strictly_increasing (NewConnection false) _
    (by decide) (by decide)

theorem mapGet_zero_eq_none (t : List (Int × Slot)) (h : ∀ k ∈ mapKeys t, 1 ≤ k) :
    mapGet t 0 = none := by
  induction t with
  | nil => rfl
  | cons e rest ih =>
    obtain ⟨k', v⟩ := e
    have hk : 1 ≤ k' := h k' (by simp [mapKeys])
    simp only [mapGet]
    rw [if_neg (by omega)]
    refine ih fun k hk2 => h k ?_
    simp [mapKeys] at hk2 ⊢
    exact Or.inr hk2

/-- C10: every request id `Send` assigns is at least 1 (the counter
starts at 0 and `requestID += 1` runs before assignment), every key
`SendAndWait` registers in the correlation table is the counter's
value after such an assignment (hence at least 1), and consequently an
inbound non-PING frame whose `requestId` field cannot be parsed —
`jsonparser.GetInt` yields 0 in that case — is never delivered to any
pending-request slot: when every table key is at least 1,
`handleMessage` returns the state unchanged with no event.  The
counter hypotheses keep the 64-bit counter short of overflow. -/
theorem unparsed_requestId_never_delivered :
    (∀ (c : Connection) (p : MsgPayload) (a b n : String) (w : Bool),
        0 ≤ c.requestID → c.requestID + 1 ≤ int64Max →
        1 ≤ (c.Send p a b n w).assigned)
    ∧ (∀ (c : Connection) (p : MsgPayload) (src dst n : String) (inp : SAWInput)
        (k : Int),
        0 ≤ c.requestID →
        c.requestID + 1 + (inp.window.length : Int) + (inp.waitFrames.length : Int)
          ≤ int64Max →
        Event.slotRegistered k ∈ (c.SendAndWait p src dst n inp).trace → 1 ≤ k)
    ∧ (∀ (c : Connection) (m : CastMessage) (w : Bool) (t : String),
        TableOK c → m.payload.typeField = some t → t ≠ "PING" →
        m.payload.requestIdField = none →
        c.handleMessage m w = (c, [])) := by
  refine ⟨?_, ?_, ?_⟩
  · intro c p a b n w h0 h2
    have h1 : int64Min ≤ c.requestID := by unfold int64Min; omega
    have hw1 := wrap64_succ _ h1 h2
    rw [Send_assigned_eq, hw1]
    omega
  · intro c p src dst n inp k h0 h2 hk
    have h1 : int64Min ≤ c.requestID := by unfold int64Min; omega
    obtain ⟨wOK, win, wfr, cd⟩ := inp
    simp only at h2 hk
    have hwin : (0 : Int) ≤ (win.length : Int) := Int.natCast_nonneg _
    have hwait : (0 : Int) ≤ (wfr.length : Int) := Int.natCast_nonneg _
    have hone : c.requestID + 1 ≤ int64Max := by omega
    have hw1 : wrap64 (c.requestID + 1) = c.requestID + 1 := wrap64_succ _ h1 hone
    cases wOK
    · simp only [Connection.SendAndWait, Connection.Send, Bool.false_eq_true,
        if_false] at hk
      simp at hk
    · simp only [Connection.SendAndWait, Connection.Send, if_true, hw1] at hk
      simp only [List.append_assoc, List.mem_append, List.mem_cons,
        List.mem_singleton, List.not_mem_nil] at hk
      have hb1 := processFrames_requestID_bounds win
          { c with requestID := c.requestID + 1 }
          (by rw [requestID_set_req]; omega) (by rw [requestID_set_req]; omega)
      rw [requestID_set_req] at hb1
      have hkey : k = (processFrames { c with requestID := c.requestID + 1 }
          win).1.requestID := by
        rcases hk with hk | hk | hk | hk | hk
        · simp at hk
        · exact absurd hk (processFrames_no_slotRegistered _ _ _)
        · simpa using hk
        · exact absurd hk (processFrames_no_slotRegistered _ _ _)
        · exact absurd hk (sawFinish_no_slotRegistered _ _ _ _)
      rw [hkey]
      omega
  · intro c m w t ht htype hne hreq
    simp only [Connection.handleMessage, htype]
    rw [if_neg hne, hreq]
    simp only [Option.getD_none]
    rw [mapGet_zero_eq_none c.resultChanMap ht]

/-- Witness for C10: the first id assigned on a fresh connection is
1 ≥ 1, and a RECEIVER_STATUS frame without a parsable `requestId`
leaves a connection with pending slot 1 unchanged, delivering
nothing. -/
theorem unparsed_requestId_never_delivered_witness :
    1 ≤ ((NewConnection false).Send connectPayload "s" "d" "urn:tp" true).assigned
    ∧ pendingConn.handleMessage ⟨"x", "y", "z", ⟨some "RECEIVER_STATUS", none⟩⟩ true
        = (pendingConn, []) :=
  ⟨unparsed_requestId_never_delivered.1 (NewConnection false) connectPayload
      "s" "d" "urn:tp" true (by decide) (by decide),
   unparsed_requestId_never_delivered.2.2 pendingConn
      ⟨"x", "y", "z", ⟨some "RECEIVER_STATUS", none⟩⟩ true "RECEIVER_STATUS"
      (by intro k hk; simp [pendingConn, mapKeys] at hk; omega)
      rfl (by decide) rfl⟩

/-- Witness for C8 (amended) at a concrete small envelope: the framed
bytes declare exactly the envelope's length and decode back to the
same envelope. -/
theorem frame_roundtrip_below_two_pow_32_witness :
    readBe32 (frameBytes (marshal sampleEnvelope))
      = some ((marshal sampleEnvelope).length, marshal sampleEnvelope)
    ∧ recvStep (frameBytes (marshal sampleEnvelope) ++ [])
        = (.dispatched sampleEnvelope, []) :=
  frame_roundtrip_below_two_pow_32 sampleEnvelope [] (by decide) (by decide)
    (by decide) (by decide) (by decide) (by decide) (by decide)
